import Mathlib

/-!
Verification of the UDPCommunication script command model and execution
engine: a shallow embedding of `UDPCommand` (src/include/udpcommand.h,
src/src/udpcommand.cpp) and of `ScriptExecutor::execute` /
`ScriptExecutor::doUnrollLoopCommands` (src/src/scriptexecutor.cpp),
together with theorems settling the specification's claims about loop
expansion and execution.
-/

namespace UDPCommunication

/-- The `UDPCommandType` enumeration from src/include/udpcommand.h, line 6. -/
inductive UDPCommandType where
  | DELAY_SECONDS
  | DELAY_MILLISECONDS
  | DELAY_MICROSECONDS
  | WRITE
  | READ
  | FLUSH_RX
  | FLUSH_TX
  | FLUSH_RX_TX
  | LOOP_START
  | LOOP_END
  | COMMAND_UNSPECIFIED
deriving DecidableEq

/-- The `DelayType` enumeration from src/include/udpcommand.h, line 7. -/
inductive DelayType where
  | SECONDS
  | MILLISECONDS
  | MICROSECONDS
deriving DecidableEq

/-- The `FlushType` enumeration from src/include/udpcommand.h, line 8. -/
inductive FlushType where
  | RX
  | TX
  | RX_TX
deriving DecidableEq

/-- The `LoopType` enumeration from src/include/udpcommand.h, line 9. -/
inductive LoopType where
  | START
  | END
deriving DecidableEq

/-- The `UDPCommand` class from src/include/udpcommand.h: an immutable pair
of a command type and a string argument (the setters only rebuild such a
pair, so a record suffices). -/
structure UDPCommand where
  commandType : UDPCommandType
  commandArgument : String
deriving DecidableEq

/-- Whitespace test matching `std::isspace` in the "C" locale, used by
`std::stoi` when skipping leading whitespace. -/
def isSpaceChar (c : Char) : Bool :=
  c == ' ' || c == '\t' || c == '\n' || c == '\r' ||
  c == Char.ofNat 11 || c == Char.ofNat 12

/-- Numeric value of the base-10 digit characters `ds`, most significant
first. -/
def digitsToNat (ds : List Char) : Nat :=
  ds.foldl (fun acc c => acc * 10 + (c.toNat - 48)) 0

/-- Model of `std::stoi` (base 10): skip leading whitespace, take an
optional sign and then the longest run of leading digits; `none` models the
`std::invalid_argument` exception thrown when no digit is found.  Trailing
non-digit characters are ignored, exactly as `std::stoi` ignores them. -/
def stoi (s : String) : Option Int :=
  let cs := s.data.dropWhile isSpaceChar
  match cs with
  | '-' :: rest =>
    let ds := rest.takeWhile Char.isDigit
    if ds.isEmpty then none else some (-(digitsToNat ds : Int))
  | '+' :: rest =>
    let ds := rest.takeWhile Char.isDigit
    if ds.isEmpty then none else some ((digitsToNat ds : Int))
  | _ =>
    let ds := cs.takeWhile Char.isDigit
    if ds.isEmpty then none else some ((digitsToNat ds : Int))

/-- Outcomes by which `ScriptExecutor::doUnrollLoopCommands`
(src/src/scriptexecutor.cpp, lines 77-129) can fail to return normally:
`stoiInvalidArgument a` models the `std::invalid_argument` exception thrown
by `std::stoi` on the unparseable string `a` (line 103),
`commandTypeNotImplemented a` models the `std::runtime_error` built from
`UDP_COMMAND_TYPE_NOT_IMPLEMENTED_STRING` plus the offending command's
argument `a` (line 122), and `outOfBounds` marks the undefined behaviour of
dereferencing or advancing the vector iterator past `end()` (possible at
lines 103, 106, 111 and 114, none of which checks against `end()`). -/
inductive ExpandError where
  | stoiInvalidArgument (arg : String)
  | commandTypeNotImplemented (arg : String)
  | outOfBounds
deriving DecidableEq

/-- The inner `while` loop of the `LOOP_START` branch of
`doUnrollLoopCommands` (src/src/scriptexecutor.cpp, lines 106-112), with
the iterator represented by the remaining suffix of the command vector.
`other` is `otherLoopStartCount` and `acc` is `loopCommands`.  The loop
condition `(iter->commandType() != LOOP_END) && (otherLoopStartCount == 0)`
dereferences the iterator first, so reaching the empty suffix is the
undefined behaviour `outOfBounds`.  On normal exit it returns the collected
`loopCommands` together with the suffix at which the iterator stopped
(which is therefore never empty). -/
def whileCollect : List UDPCommand → Nat → List UDPCommand →
    Except ExpandError (List UDPCommand × List UDPCommand)
  | [], _, _ => .error .outOfBounds
  | c :: rest, other, acc =>
    if c.commandType ≠ .LOOP_END ∧ other = 0 then
      whileCollect rest
        (if c.commandType = .LOOP_START then other + 1 else other)
        (acc ++ [c])
    else .ok (acc, c :: rest)

/-- One pass of the `for` loop of `doUnrollLoopCommands`
(src/src/scriptexecutor.cpp, lines 81-127), iterator as remaining suffix,
`acc` as `returnCommands`.  The eight plain command types are pushed
through unchanged.  On `LOOP_START` the code does `iter++` and *then* reads
the loop count with `std::stoi(iter->commandArgument())` (lines 102-103),
i.e. from the command *after* the `LOOP_START`; collects the body with the
inner `while` loop starting at that same command; then advances the
iterator twice (the explicit `iter++` of line 114 plus the `for` loop's own
increment), skipping the element at which the `while` stopped and the one
after it; and appends the body `loopCount` times (a non-positive count
appends nothing, as with `for (int i = 0; i < loopCount; i++)`).  Any other
command type throws `commandTypeNotImplemented` (lines 121-123).  The
`fuel` argument only bounds the number of `for`-loop iterations; since
every iteration consumes at least one element of the suffix, a fuel
exceeding the list's length is never exhausted (`unrollFuel_fuel_ext`
below), so the `fuel = 0` branch is unreachable from
`doUnrollLoopCommands`. -/
def unrollFuel : Nat → List UDPCommand → List UDPCommand →
    Except ExpandError (List UDPCommand)
  | _, [], acc => .ok acc
  | 0, _ :: _, _ => .error .outOfBounds
  | fuel + 1, c :: rest, acc =>
    match c.commandType with
    | .WRITE => unrollFuel fuel rest (acc ++ [c])
    | .READ => unrollFuel fuel rest (acc ++ [c])
    | .DELAY_SECONDS => unrollFuel fuel rest (acc ++ [c])
    | .DELAY_MILLISECONDS => unrollFuel fuel rest (acc ++ [c])
    | .DELAY_MICROSECONDS => unrollFuel fuel rest (acc ++ [c])
    | .FLUSH_RX => unrollFuel fuel rest (acc ++ [c])
    | .FLUSH_TX => unrollFuel fuel rest (acc ++ [c])
    | .FLUSH_RX_TX => unrollFuel fuel rest (acc ++ [c])
    | .LOOP_START =>
      match rest with
      | [] => .error .outOfBounds
      | d :: _ =>
        match stoi d.commandArgument with
        | none => .error (.stoiInvalidArgument d.commandArgument)
        | some loopCount =>
          match whileCollect rest 0 [] with
          | .error e => .error e
          | .ok (loopCommands, remaining) =>
            match remaining with
            | [] => .error .outOfBounds
            | [_] => .error .outOfBounds
            | _ :: _ :: rest3 =>
              unrollFuel fuel rest3
                (acc ++ (List.replicate loopCount.toNat loopCommands).flatten)
    | .LOOP_END => .error (.commandTypeNotImplemented c.commandArgument)
    | .COMMAND_UNSPECIFIED =>
      .error (.commandTypeNotImplemented c.commandArgument)

/-- `ScriptExecutor::doUnrollLoopCommands` (src/src/scriptexecutor.cpp,
lines 77-129): run the `for` loop over the whole command list with an
always-sufficient iteration bound and an empty initial `returnCommands`. -/
def doUnrollLoopCommands (udpCommands : List UDPCommand) :
    Except ExpandError (List UDPCommand) :=
  unrollFuel (udpCommands.length + 1) udpCommands []

/-- Deterministic model of the `UDPDuplex` transport consumed by
`ScriptExecutor::execute` (src/src/scriptexecutor.cpp, line 20): for each
member function the executor calls, the result it returns, with
`Except.error msg` modelling a thrown exception whose `what()` is `msg`. -/
structure TransportModel where
  isOpen : Bool
  openResult : Except String Unit
  writeResult : String → Except String Unit
  readResult : Except String String
  flushRXResult : Except String Unit
  flushTXResult : Except String Unit
  flushRXTXResult : Except String Unit

/-- One observable step of `ScriptExecutor::execute`: either a call into
the transport / delay primitives, or an invocation of one of the five
observer callbacks (`printRxResult`, `printTxResult`, `printDelayResult`,
`printFlushResult`, `printLoopResult`). -/
inductive TraceEvent where
  | openPortCall
  | writeStringCall (s : String)
  | readStringCall
  | flushRXCall
  | flushTXCall
  | flushRXTXCall
  | delaySecondsCall (n : Int)
  | delayMillisecondsCall (n : Int)
  | delayMicrosecondsCall (n : Int)
  | rxResult (s : String)
  | txResult (s : String)
  | delayResult (t : DelayType) (n : Int)
  | flushResult (t : FlushType)
  | loopResult (t : LoopType) (index total : Int)
deriving DecidableEq

/-- The ways `ScriptExecutor::execute` (src/src/scriptexecutor.cpp, lines
20-75) can throw: the null-duplex check of line 29, an `openPort` failure
rethrown at line 36, an error propagated out of `doUnrollLoopCommands`
(line 42), a transport exception rethrown at line 72, a `std::stoi` failure
on a delay argument, and the `UDP_COMMAND_TYPE_NOT_IMPLEMENTED_STRING`
throw of line 69. -/
inductive ExecError where
  | nullUdpDuplexPassedToExecute
  | openPortFailure (msg : String)
  | unrollError (e : ExpandError)
  | transportError (msg : String)
  | stoiInvalidArgument (arg : String)
  | commandTypeNotImplemented (arg : String)
deriving DecidableEq

/-- Dispatch of a single command by the `for` loop of
`ScriptExecutor::execute` (src/src/scriptexecutor.cpp, lines 43-74):
returns the events that occur, in order, and the error thrown if any.
`WRITE` calls `writeString` and only then `printTxResult` (lines 45-47), so
a write failure produces no `txResult` event; `READ` calls `readString`
then `printRxResult` (lines 48-49); the three delay kinds parse the
argument with `std::stoi` (throwing before any event when unparseable),
report via `printDelayResult` and then block — note lines 56-58 report
`MICROSECONDS` but call `delayMilliseconds`; the flush kinds report via
`printFlushResult` first and then call the transport flush (lines 59-67);
every other kind (including the loop markers) throws at line 69. -/
def execStep (t : TransportModel) (c : UDPCommand) :
    List TraceEvent × Option ExecError :=
  match c.commandType with
  | .WRITE =>
    match t.writeResult c.commandArgument with
    | .ok _ =>
      ([.writeStringCall c.commandArgument, .txResult c.commandArgument],
       none)
    | .error msg =>
      ([.writeStringCall c.commandArgument], some (.transportError msg))
  | .READ =>
    match t.readResult with
    | .ok s => ([.readStringCall, .rxResult s], none)
    | .error msg => ([.readStringCall], some (.transportError msg))
  | .DELAY_SECONDS =>
    match stoi c.commandArgument with
    | none => ([], some (.stoiInvalidArgument c.commandArgument))
    | some n => ([.delayResult .SECONDS n, .delaySecondsCall n], none)
  | .DELAY_MILLISECONDS =>
    match stoi c.commandArgument with
    | none => ([], some (.stoiInvalidArgument c.commandArgument))
    | some n => ([.delayResult .MILLISECONDS n, .delayMillisecondsCall n], none)
  | .DELAY_MICROSECONDS =>
    match stoi c.commandArgument with
    | none => ([], some (.stoiInvalidArgument c.commandArgument))
    | some n => ([.delayResult .MICROSECONDS n, .delayMillisecondsCall n], none)
  | .FLUSH_RX =>
    match t.flushRXResult with
    | .ok _ => ([.flushResult .RX, .flushRXCall], none)
    | .error msg => ([.flushResult .RX, .flushRXCall], some (.transportError msg))
  | .FLUSH_TX =>
    match t.flushTXResult with
    | .ok _ => ([.flushResult .TX, .flushTXCall], none)
    | .error msg => ([.flushResult .TX, .flushTXCall], some (.transportError msg))
  | .FLUSH_RX_TX =>
    match t.flushRXTXResult with
    | .ok _ => ([.flushResult .RX_TX, .flushRXTXCall], none)
    | .error msg =>
      ([.flushResult .RX_TX, .flushRXTXCall], some (.transportError msg))
  | .LOOP_START => ([], some (.commandTypeNotImplemented c.commandArgument))
  | .LOOP_END => ([], some (.commandTypeNotImplemented c.commandArgument))
  | .COMMAND_UNSPECIFIED =>
    ([], some (.commandTypeNotImplemented c.commandArgument))

/-- The `for` loop of `ScriptExecutor::execute` over the expanded command
list (src/src/scriptexecutor.cpp, lines 43-74): commands run strictly in
order; the first error aborts the remainder of the script, keeping the
events that already occurred. -/
def runCommands (t : TransportModel) :
    List UDPCommand → List TraceEvent × Option ExecError
  | [] => ([], none)
  | c :: rest =>
    match execStep t c with
    | (evs, some e) => (evs, some e)
    | (evs, none) =>
      let r := runCommands t rest
      (evs ++ r.1, r.2)

/-- The state of a `ScriptExecutor` object (src/include/scriptexecutor.h,
lines 30-32): the command list held by its `m_scriptReader` and the
`m_scriptCommands` member that `execute` assigns at
src/src/scriptexecutor.cpp, line 42. -/
structure ScriptExecutor where
  m_scriptReaderCommands : List UDPCommand
  m_scriptCommands : List UDPCommand
deriving DecidableEq

/-- Result of one `ScriptExecutor::execute` call: the executor's state when
the call returns (or throws), the ordered trace of transport calls and
observer invocations, and the error thrown if any. -/
structure ExecuteResult where
  finalState : ScriptExecutor
  trace : List TraceEvent
  error : Option ExecError
deriving DecidableEq

/-- `ScriptExecutor::execute` (src/src/scriptexecutor.cpp, lines 20-75):
throw on a null duplex (line 29); otherwise, if the transport is not open,
call `openPort` and rethrow its failure (lines 32-38); expand the reader's
commands with `doUnrollLoopCommands` and store the result into the
`m_scriptCommands` member (line 42) — on an expansion error the assignment
does not happen and the state is unchanged; finally run the `for` loop over
`m_scriptCommands`.  The five observer callbacks are parameters in the
C++; the trace records their invocations, and `printLoopResult` has its
`loopResult` event available but, as the theorems show, never emitted. -/
def execute (self : ScriptExecutor) (udpDuplex : Option TransportModel) :
    ExecuteResult :=
  match udpDuplex with
  | none => ⟨self, [], some .nullUdpDuplexPassedToExecute⟩
  | some t =>
    if t.isOpen then
      match doUnrollLoopCommands self.m_scriptReaderCommands with
      | .error e => ⟨self, [], some (.unrollError e)⟩
      | .ok expanded =>
        let r := runCommands t expanded
        ⟨⟨self.m_scriptReaderCommands, expanded⟩, r.1, r.2⟩
    else
      match t.openResult with
      | .error msg => ⟨self, [.openPortCall], some (.openPortFailure msg)⟩
      | .ok _ =>
        match doUnrollLoopCommands self.m_scriptReaderCommands with
        | .error e => ⟨self, [.openPortCall], some (.unrollError e)⟩
        | .ok expanded =>
          let r := runCommands t expanded
          ⟨⟨self.m_scriptReaderCommands, expanded⟩, .openPortCall :: r.1, r.2⟩

/-- A transport model on which every operation succeeds and the port is
already open; reads return the empty string. -/
def okTransport : TransportModel where
  isOpen := true
  openResult := .ok ()
  writeResult := fun _ => .ok ()
  readResult := .ok ""
  flushRXResult := .ok ()
  flushTXResult := .ok ()
  flushRXTXResult := .ok ()

/-! ## General lemmas about the loop expander -/

/-- The inner `while` loop only advances the iterator: the suffix at which
it stops is no longer than the suffix at which it starts. -/
theorem whileCollect_length :
    ∀ (l : List UDPCommand) (other : Nat) (acc body rem : List UDPCommand),
      whileCollect l other acc = .ok (body, rem) → rem.length ≤ l.length := by
  intro l
  induction l with
  | nil => intro other acc body rem h; simp [whileCollect] at h
  | cons c rest ih =>
    intro other acc body rem h
    rw [whileCollect] at h
    by_cases hc : c.commandType ≠ .LOOP_END ∧ other = 0
    · rw [if_pos hc] at h
      have := ih _ _ _ _ h
      simp only [List.length_cons]
      omega
    · rw [if_neg hc] at h
      cases h
      simp

/-- The fuel bound of `unrollFuel` is an artifact of the embedding: any two
bounds exceeding the list's length give the same result, because every
iteration of the `for` loop consumes at least one element of the remaining
suffix.  In particular the `fuel = 0` branch is unreachable from
`doUnrollLoopCommands`, which supplies `length + 1`. -/
theorem unrollFuel_fuel_ext :
    ∀ (f₁ f₂ : Nat) (l acc : List UDPCommand), l.length < f₁ →
      l.length < f₂ → unrollFuel f₁ l acc = unrollFuel f₂ l acc := by
  intro f₁
  induction f₁ with
  | zero => intro f₂ l acc h1 _; exact absurd h1 (Nat.not_lt_zero _)
  | succ n ih =>
    intro f₂ l acc h1 h2
    cases l with
    | nil => cases f₂ with
      | zero => exact absurd h2 (Nat.not_lt_zero _)
      | succ m => rfl
    | cons c rest =>
      cases f₂ with
      | zero => exact absurd h2 (Nat.not_lt_zero _)
      | succ m =>
        have hn : rest.length < n := by simp at h1; omega
        have hm : rest.length < m := by simp at h2; omega
        obtain ⟨ct, arg⟩ := c
        cases ct
        case WRITE => exact ih m rest _ hn hm
        case READ => exact ih m rest _ hn hm
        case DELAY_SECONDS => exact ih m rest _ hn hm
        case DELAY_MILLISECONDS => exact ih m rest _ hn hm
        case DELAY_MICROSECONDS => exact ih m rest _ hn hm
        case FLUSH_RX => exact ih m rest _ hn hm
        case FLUSH_TX => exact ih m rest _ hn hm
        case FLUSH_RX_TX => exact ih m rest _ hn hm
        case LOOP_END => rfl
        case COMMAND_UNSPECIFIED => rfl
        case LOOP_START =>
          cases rest with
          | nil => rfl
          | cons d rest2 =>
            simp only [unrollFuel]
            cases stoi d.commandArgument with
            | none => rfl
            | some loopCount =>
              cases hw : whileCollect (d :: rest2) 0 [] with
              | error e => rfl
              | ok p =>
                obtain ⟨body, rem⟩ := p
                have hrem : rem.length ≤ rest2.length + 1 := by
                  simpa using whileCollect_length _ _ _ _ _ hw
                cases rem with
                | nil => rfl
                | cons x rem1 =>
                  cases rem1 with
                  | nil => rfl
                  | cons y rest3 =>
                    have h3n : rest3.length < n := by simp at hrem hn; omega
                    have h3m : rest3.length < m := by simp at hrem hm; omega
                    exact ih m rest3 _ h3n h3m

/-- One iteration of the `for` loop on a plain (non-marker,
non-unspecified) command: it is pushed onto `returnCommands` and the
iterator advances by one. -/
theorem unrollFuel_cons_plain (n : Nat) (ct : UDPCommandType) (arg : String)
    (rest acc : List UDPCommand) (h1 : ct ≠ .LOOP_START)
    (h2 : ct ≠ .LOOP_END) (h3 : ct ≠ .COMMAND_UNSPECIFIED) :
    unrollFuel (n + 1) (⟨ct, arg⟩ :: rest) acc =
      unrollFuel n rest (acc ++ [⟨ct, arg⟩]) := by
  cases ct
  case LOOP_START => exact absurd rfl h1
  case LOOP_END => exact absurd rfl h2
  case COMMAND_UNSPECIFIED => exact absurd rfl h3
  all_goals rfl

/-- Pushing a plain (non-marker, non-unspecified) command through one
iteration of the `for` loop of `doUnrollLoopCommands`. -/
theorem unrollFuel_plain :
    ∀ (l : List UDPCommand) (f : Nat) (acc : List UDPCommand),
      (∀ c ∈ l, c.commandType ≠ .LOOP_START ∧ c.commandType ≠ .LOOP_END ∧
        c.commandType ≠ .COMMAND_UNSPECIFIED) →
      l.length < f → unrollFuel f l acc = .ok (acc ++ l) := by
  intro l
  induction l with
  | nil => intro f acc _ hf
           cases f with
           | zero => exact absurd hf (Nat.not_lt_zero _)
           | succ n => simp [unrollFuel]
  | cons c rest ih =>
    intro f acc h hf
    cases f with
    | zero => exact absurd hf (Nat.not_lt_zero _)
    | succ n =>
      have hc := h c (List.mem_cons_self c rest)
      have hrest : ∀ x ∈ rest, x.commandType ≠ .LOOP_START ∧
          x.commandType ≠ .LOOP_END ∧ x.commandType ≠ .COMMAND_UNSPECIFIED :=
        fun x hx => h x (List.mem_cons_of_mem _ hx)
      have hlen : rest.length < n := by simp at hf; omega
      obtain ⟨ct, arg⟩ := c
      cases ct
      case LOOP_START => exact absurd rfl hc.1
      case LOOP_END => exact absurd rfl hc.2.1
      case COMMAND_UNSPECIFIED => exact absurd rfl hc.2.2
      all_goals
        rw [unrollFuel_cons_plain _ _ _ _ _ hc.1 hc.2.1 hc.2.2,
            ih n _ hrest hlen]
        simp

/-! ## Claims C1-C4 and C10: the loop expander against the specification -/

/-- C1: the specification's scenario
`[Write("A"), LoopStart("2"), Write("B"), Read, LoopEnd, Write("C")]` is
claimed to expand to
`[Write("A"), Write("B"), Read, Write("B"), Read, Write("C")]`, with the
repeat count read from the `LoopStart` command's own argument.  The code
instead advances the iterator past the `LoopStart` before calling
`std::stoi` (src/src/scriptexecutor.cpp, lines 102-103), so it tries to
parse the first body command's argument `"B"` and throws
`std::invalid_argument` instead of producing any expansion. -/
theorem C1_expander_throws_on_spec_scenario :
    doUnrollLoopCommands
      [⟨.WRITE, "A"⟩, ⟨.LOOP_START, "2"⟩, ⟨.WRITE, "B"⟩, ⟨.READ, ""⟩,
       ⟨.LOOP_END, ""⟩, ⟨.WRITE, "C"⟩] =
    .error (.stoiInvalidArgument "B") := rfl

/-- C2: the specification's nested scenario
`[LoopStart("2"), LoopStart("1"), Write("X"), LoopEnd, LoopEnd]` is claimed
to expand to `[Write("X"), Write("X")]` with no markers remaining.  The
code's single-pass `while` loop stops as soon as it has pushed the nested
`LoopStart` into the body, skips two commands, and then meets the outer
`LoopEnd` at the top level of the `for` loop, where it throws the
`UDP_COMMAND_TYPE_NOT_IMPLEMENTED_STRING` error
(src/src/scriptexecutor.cpp, lines 106-122). -/
theorem C2_nested_scenario_throws :
    doUnrollLoopCommands
      [⟨.LOOP_START, "2"⟩, ⟨.LOOP_START, "1"⟩, ⟨.WRITE, "X"⟩,
       ⟨.LOOP_END, ""⟩, ⟨.LOOP_END, ""⟩] =
    .error (.commandTypeNotImplemented "") := rfl

/-- C3: on any script with no `LoopStart`, no `LoopEnd` and no
`Unspecified` command, `doUnrollLoopCommands` pushes every command through
unchanged and returns the input sequence itself. -/
theorem C3_expand_identity_without_markers (s : List UDPCommand)
    (h : ∀ c ∈ s, c.commandType ≠ .LOOP_START ∧ c.commandType ≠ .LOOP_END ∧
      c.commandType ≠ .COMMAND_UNSPECIFIED) :
    doUnrollLoopCommands s = .ok s := by
  have := unrollFuel_plain s (s.length + 1) [] h (Nat.lt_succ_self _)
  simpa [doUnrollLoopCommands] using this

/-- Witness for C3 at a concrete three-command script. -/
theorem C3_expand_identity_witness :
    doUnrollLoopCommands [⟨.WRITE, "A"⟩, ⟨.READ, ""⟩, ⟨.FLUSH_RX, ""⟩] =
      .ok [⟨.WRITE, "A"⟩, ⟨.READ, ""⟩, ⟨.FLUSH_RX, ""⟩] :=
  C3_expand_identity_without_markers
    [⟨.WRITE, "A"⟩, ⟨.READ, ""⟩, ⟨.FLUSH_RX, ""⟩] (by decide)

/-- C4: a `LoopStart` with no following `LoopEnd` is claimed to fail with a
structural `MalformedScript` error without running past the end of the
sequence.  The code has no such error path: on the input
`[LoopStart("5")]` it advances the iterator past the `LoopStart` and
immediately dereferences `end()` to read the loop count
(src/src/scriptexecutor.cpp, lines 102-103) — undefined behaviour, modelled
as `outOfBounds`. -/
theorem C4_unmatched_loopStart_reads_past_end :
    doUnrollLoopCommands [⟨.LOOP_START, "5"⟩] = .error .outOfBounds := rfl

/-- C10 counterexample: the input
`[LoopStart("2"), Write("1"), LoopEnd, Unspecified("z")]` contains an
`Unspecified` command outside any loop body, yet `doUnrollLoopCommands`
does not fail: the double iterator increment after the loop body
(src/src/scriptexecutor.cpp, line 114 plus the `for` increment) skips the
command following `LoopEnd`, so the `Unspecified` command is silently
dropped and the expansion succeeds. -/
theorem C10_unspecified_after_loopEnd_skipped :
    doUnrollLoopCommands
      [⟨.LOOP_START, "2"⟩, ⟨.WRITE, "1"⟩, ⟨.LOOP_END, ""⟩,
       ⟨.COMMAND_UNSPECIFIED, "z"⟩] = .ok [⟨.WRITE, "1"⟩] := rfl

/-- C10 as amended: when no loop marker (and no other `Unspecified`
command) precedes it, an `Unspecified` command makes `doUnrollLoopCommands`
itself fail with the command-type-not-implemented error carrying that
command's argument. -/
theorem C10_unspecified_before_markers_rejected
    (pre post : List UDPCommand) (a : String)
    (hpre : ∀ c ∈ pre, c.commandType ≠ .LOOP_START ∧
      c.commandType ≠ .LOOP_END ∧ c.commandType ≠ .COMMAND_UNSPECIFIED) :
    doUnrollLoopCommands (pre ++ ⟨.COMMAND_UNSPECIFIED, a⟩ :: post) =
      .error (.commandTypeNotImplemented a) := by
  suffices hgen : ∀ (pre : List UDPCommand) (f : Nat) (acc : List UDPCommand),
      (∀ c ∈ pre, c.commandType ≠ .LOOP_START ∧ c.commandType ≠ .LOOP_END ∧
        c.commandType ≠ .COMMAND_UNSPECIFIED) →
      (pre ++ ⟨.COMMAND_UNSPECIFIED, a⟩ :: post).length < f →
      unrollFuel f (pre ++ ⟨.COMMAND_UNSPECIFIED, a⟩ :: post) acc =
        .error (.commandTypeNotImplemented a) by
    exact hgen pre _ [] hpre (Nat.lt_succ_self _)
  intro pre
  induction pre with
  | nil =>
    intro f acc _ hf
    cases f with
    | zero => exact absurd hf (Nat.not_lt_zero _)
    | succ n => rfl
  | cons c rest ih =>
    intro f acc h hf
    cases f with
    | zero => exact absurd hf (Nat.not_lt_zero _)
    | succ n =>
      have hc := h c (List.mem_cons_self c rest)
      have hrest : ∀ x ∈ rest, x.commandType ≠ .LOOP_START ∧
          x.commandType ≠ .LOOP_END ∧ x.commandType ≠ .COMMAND_UNSPECIFIED :=
        fun x hx => h x (List.mem_cons_of_mem _ hx)
      have hlen : (rest ++ ⟨.COMMAND_UNSPECIFIED, a⟩ :: post).length < n := by
        simp at hf ⊢; omega
      obtain ⟨ct, arg⟩ := c
      cases ct
      case LOOP_START => exact absurd rfl hc.1
      case LOOP_END => exact absurd rfl hc.2.1
      case COMMAND_UNSPECIFIED => exact absurd rfl hc.2.2
      all_goals
        rw [List.cons_append,
            unrollFuel_cons_plain _ _ _ _ _ hc.1 hc.2.1 hc.2.2]
        exact ih n _ hrest hlen

/-- Witness for the amended C10 at a concrete input with a plain prefix. -/
theorem C10_unspecified_rejected_witness :
    doUnrollLoopCommands
      [⟨.WRITE, "A"⟩, ⟨.COMMAND_UNSPECIFIED, "z"⟩, ⟨.READ, ""⟩] =
      .error (.commandTypeNotImplemented "z") :=
  C10_unspecified_before_markers_rejected
    [⟨.WRITE, "A"⟩] [⟨.READ, ""⟩] "z" (by decide)

/-! ## General lemmas about the executor -/

/-- Running an error-free prefix composes: the trace of the prefix comes
first and the rest of the script continues after it. -/
theorem runCommands_append_ok (t : TransportModel) :
    ∀ (l₁ l₂ : List UDPCommand), (runCommands t l₁).2 = none →
      runCommands t (l₁ ++ l₂) =
        ((runCommands t l₁).1 ++ (runCommands t l₂).1,
         (runCommands t l₂).2) := by
  intro l₁
  induction l₁ with
  | nil => intro l₂ _; simp [runCommands]
  | cons c rest ih =>
    intro l₂ h
    cases hstep : execStep t c with
    | mk evs err =>
      cases err with
      | some e =>
        rw [runCommands, hstep] at h
        simp at h
      | none =>
        rw [runCommands, hstep] at h ⊢
        simp only at h
        rw [List.cons_append, runCommands, hstep]
        simp only [ih l₂ h]
        simp [runCommands, hstep, List.append_assoc]

/-- No branch of the per-command dispatch emits a `loopResult` event: the
`printLoopResult` callback does not occur in any event list `execStep`
produces. -/
theorem execStep_no_loopResult (t : TransportModel) (c : UDPCommand)
    (lt : LoopType) (i tot : Int) :
    TraceEvent.loopResult lt i tot ∉ (execStep t c).1 := by
  obtain ⟨ct, arg⟩ := c
  cases ct
  case WRITE =>
    cases hw : t.writeResult arg <;> simp [execStep, hw]
  case READ =>
    cases hr : t.readResult <;> simp [execStep, hr]
  case DELAY_SECONDS =>
    cases hs : stoi arg <;> simp [execStep, hs]
  case DELAY_MILLISECONDS =>
    cases hs : stoi arg <;> simp [execStep, hs]
  case DELAY_MICROSECONDS =>
    cases hs : stoi arg <;> simp [execStep, hs]
  case FLUSH_RX =>
    cases hf : t.flushRXResult <;> simp [execStep, hf]
  case FLUSH_TX =>
    cases hf : t.flushTXResult <;> simp [execStep, hf]
  case FLUSH_RX_TX =>
    cases hf : t.flushRXTXResult <;> simp [execStep, hf]
  case LOOP_START => simp [execStep]
  case LOOP_END => simp [execStep]
  case COMMAND_UNSPECIFIED => simp [execStep]

/-- The `for` loop of `execute` never emits a `loopResult` event. -/
theorem runCommands_no_loopResult (t : TransportModel)
    (lt : LoopType) (i tot : Int) :
    ∀ l : List UDPCommand,
      TraceEvent.loopResult lt i tot ∉ (runCommands t l).1 := by
  intro l
  induction l with
  | nil => simp [runCommands]
  | cons c rest ih =>
    have hstep := execStep_no_loopResult t c lt i tot
    cases h : execStep t c with
    | mk evs err =>
      rw [h] at hstep
      cases err with
      | some e => rw [runCommands, h]; exact hstep
      | none =>
        rw [runCommands, h]
        simp only [List.mem_append]
        rintro (hin | hin)
        · exact hstep hin
        · exact ih hin

/-! ## Claims C5-C9: the executor against the specification -/

/-- C5: a `DelayMicroseconds` command is claimed to block in microseconds.
Against a fully-working open transport, executing the single command
`DelayMicroseconds("5")` invokes `printDelayResult(MICROSECONDS, 5)` once
and then calls `delayMilliseconds(5)` — not `delayMicroseconds` — because
src/src/scriptexecutor.cpp, line 58 calls the milliseconds primitive in
the `DELAY_MICROSECONDS` branch, so the caller blocks in milliseconds. -/
theorem C5_delay_microseconds_blocks_milliseconds :
    execute ⟨[⟨.DELAY_MICROSECONDS, "5"⟩], []⟩ (some okTransport) =
      ⟨⟨[⟨.DELAY_MICROSECONDS, "5"⟩], [⟨.DELAY_MICROSECONDS, "5"⟩]⟩,
       [.delayResult .MICROSECONDS 5, .delayMillisecondsCall 5], none⟩ ∧
    TraceEvent.delayMicrosecondsCall 5 ∉
      (execute ⟨[⟨.DELAY_MICROSECONDS, "5"⟩], []⟩ (some okTransport)).trace :=
  ⟨rfl, by decide⟩

/-- C6: if the next command of the (successfully expanded) script is
`Write(arg)` and the transport's write fails, `execute` rethrows the
transport exception at once: the trace ends at the failed `writeString`
call, `printTxResult` is never invoked for that command, and no later
command of the script runs. -/
theorem C6_write_failure_aborts (self : ScriptExecutor) (t : TransportModel)
    (pre post : List UDPCommand) (arg msg : String)
    (hopen : t.isOpen = true)
    (hexp : doUnrollLoopCommands self.m_scriptReaderCommands =
      .ok (pre ++ ⟨.WRITE, arg⟩ :: post))
    (hpre : (runCommands t pre).2 = none)
    (hw : t.writeResult arg = .error msg) :
    (execute self (some t)).trace =
      (runCommands t pre).1 ++ [.writeStringCall arg] ∧
    (execute self (some t)).error = some (.transportError msg) := by
  have hrun : runCommands t (pre ++ ⟨.WRITE, arg⟩ :: post) =
      ((runCommands t pre).1 ++ [.writeStringCall arg],
       some (.transportError msg)) := by
    rw [runCommands_append_ok t pre _ hpre]
    rw [runCommands, show execStep t ⟨.WRITE, arg⟩ =
      ([.writeStringCall arg], some (.transportError msg)) by
        simp [execStep, hw]]
  simp [execute, hopen, hexp, hrun]

/-- Witness for C6: a one-command script against a transport whose write
always fails with message "io". -/
theorem C6_write_failure_aborts_witness :
    (execute ⟨[⟨.WRITE, "hi"⟩], []⟩
      (some { okTransport with writeResult := fun _ => .error "io" })).trace =
      [] ++ [.writeStringCall "hi"] ∧
    (execute ⟨[⟨.WRITE, "hi"⟩], []⟩
      (some { okTransport with writeResult := fun _ => .error "io" })).error =
      some (.transportError "io") :=
  C6_write_failure_aborts ⟨[⟨.WRITE, "hi"⟩], []⟩
    { okTransport with writeResult := fun _ => .error "io" }
    [] [] "hi" "io" rfl rfl rfl rfl

/-- C7: calling `execute` with a null transport handle throws the
`NULL_UDP_DUPLEX_PASSED_TO_EXECUTE_STRING` error immediately
(src/src/scriptexecutor.cpp, lines 29-31): the state is untouched and the
trace is empty — no open, read, write or flush is attempted and no
observer callback is invoked, whatever the executor's script is. -/
theorem C7_null_transport_fails_immediately (self : ScriptExecutor) :
    execute self none = ⟨self, [], some .nullUdpDuplexPassedToExecute⟩ := rfl

/-- C8 counterexample: the expanded command list is *not* discarded when
`execute` returns.  After successfully executing the one-command script
`[Write("hi")]`, the executor's `m_scriptCommands` member still holds the
expanded list (src/src/scriptexecutor.cpp, line 42 assigns it and nothing
ever clears it), so an observation of the executor's state after the call
shows retained expanded commands. -/
theorem C8_expanded_list_retained_counterexample :
    (execute ⟨[⟨.WRITE, "hi"⟩], []⟩
      (some okTransport)).error = none ∧
    (execute ⟨[⟨.WRITE, "hi"⟩], []⟩
      (some okTransport)).finalState.m_scriptCommands = [⟨.WRITE, "hi"⟩] ∧
    (execute ⟨[⟨.WRITE, "hi"⟩], []⟩
      (some okTransport)).finalState.m_scriptCommands ≠ [] :=
  ⟨rfl, rfl, by decide⟩

/-- C8 as amended: the expanded command list survives the `execute` call in
the `m_scriptCommands` member — whenever expansion succeeds against an open
transport, the executor's state after the call holds exactly the expanded
list (it is only overwritten by a later `execute` call, never discarded). -/
theorem C8_expansion_stored_in_member (self : ScriptExecutor)
    (t : TransportModel) (expanded : List UDPCommand)
    (hopen : t.isOpen = true)
    (hexp : doUnrollLoopCommands self.m_scriptReaderCommands = .ok expanded) :
    (execute self (some t)).finalState.m_scriptCommands = expanded := by
  simp [execute, hopen, hexp]

/-- Witness for the amended C8 at a concrete one-command script. -/
theorem C8_expansion_stored_in_member_witness :
    (execute ⟨[⟨.READ, ""⟩], []⟩
      (some okTransport)).finalState.m_scriptCommands = [⟨.READ, ""⟩] :=
  C8_expansion_stored_in_member ⟨[⟨.READ, ""⟩], []⟩ okTransport
    [⟨.READ, ""⟩] rfl rfl

/-- C9: the `printLoopResult` observer — the fifth callback passed to
`execute` — is never invoked: for every executor state, every transport
(or none) and every loop event, no `loopResult` event occurs in the trace
of the call, because no branch of src/src/scriptexecutor.cpp, lines 20-75
calls `printLoopResult`. -/
theorem C9_loop_observer_never_invoked (self : ScriptExecutor)
    (udpDuplex : Option TransportModel) (lt : LoopType) (i tot : Int) :
    TraceEvent.loopResult lt i tot ∉ (execute self udpDuplex).trace := by
  cases udpDuplex with
  | none => simp [execute]
  | some t =>
    cases hopen : t.isOpen with
    | true =>
      cases hexp : doUnrollLoopCommands self.m_scriptReaderCommands with
      | error e => simp [execute, hopen, hexp]
      | ok expanded =>
        simp only [execute, hopen, hexp, if_true]
        exact runCommands_no_loopResult t lt i tot expanded
    | false =>
      cases hres : t.openResult with
      | error msg => simp [execute, hopen, hres]
      | ok u =>
        cases hexp : doUnrollLoopCommands self.m_scriptReaderCommands with
        | error e => simp [execute, hopen, hres, hexp]
        | ok expanded =>
          simp only [execute, hopen, hres, hexp, if_false, Bool.false_eq_true,
            List.mem_cons]
          rintro (h | h)
          · exact absurd h (by simp)
          · exact runCommands_no_loopResult t lt i tot expanded h

end UDPCommunication
